import Mathlib

/-!
# Verification of the funding-rate scheduling and verification engine

Shallow embedding of the core logic of the `project_funding_rate_his_realtime`
repository, together with theorems settling the specification claims.

Conventions of the embedding:
* Time is measured in integer milliseconds (`Nat`); durations given in seconds
  in the source are scaled by 1000 (e.g. the 1.5 s minimum request interval
  becomes 1500 ms).
* Python `float` arithmetic on small rational constants (the 0.9 alert
  threshold) is modelled exactly over `ℚ`.
* Python dicts are modelled as association lists with first-match lookup
  (`dlookup`) and order-preserving insert-or-replace (`dupdate`), matching
  CPython dict semantics up to iteration order of pre-existing keys.
* Network and store effects are passed in explicitly: a probe oracle stands
  for `GET /fapi/v1/fundingRate` emptiness, an optional snapshot function for
  `GET /fapi/v1/premiumIndex`, and a record list for the Mongo collection.
-/

/-! ## Association lists standing for Python dicts -/

/-- First-match lookup, `d.get(k)` on a Python dict modelled as an
association list. -/
def dlookup {α : Type} (m : List (String × α)) (k : String) : Option α :=
  (m.find? (fun p => p.1 == k)).map (fun p => p.2)

/-- Python dict assignment `d[k] = v`: replace the binding in place when the key is
present (keeping its position), append it otherwise. -/
def dupdate {α : Type} : List (String × α) → String → α → List (String × α)
  | [], k, v => [(k, v)]
  | p :: rest, k, v =>
      if p.1 == k then (k, v) :: rest else p :: dupdate rest k v

/-! ## `FundingIntervalDetector` (src/utils/funding_interval_detector.py) -/

/-- Embeds `FundingIntervalDetector._determine_interval_from_hour`: classify a
next-funding UTC hour into a cadence label. -/
def determine_interval_from_hour (hour : Nat) : String :=
  if hour % 8 == 0 then "8h"
  else if hour % 4 == 0 then "4h"
  else "8h"

/-- UTC hour-of-day of a millisecond epoch timestamp, as computed by
`datetime.fromtimestamp(t / 1000, tz=timezone.utc).hour`. -/
def hour_of_ms (t : Nat) : Nat :=
  t / 1000 / 3600 % 24

/-- Embeds `FundingIntervalDetector._analyze_funding_patterns`.  The snapshot fetch
is `none` when the HTTP request fails (non-200 status or exception), in which
case the method returns the empty dict; otherwise `some f` gives each
symbol's `nextFundingTime` (`f s = none` when the symbol is absent from the
response).  Iteration is over the requested symbols that appear in the
response, matching the `symbol_data` dict up to iteration order. -/
def analyze_funding_patterns (fetch : Option (String → Option Nat))
    (symbols : List String) : List (String × String) :=
  match fetch with
  | none => []
  | some f =>
      (symbols.filter (fun s => (f s).isSome)).map (fun s =>
        match f s with
        | some next_funding_time =>
            if next_funding_time == 0 then (s, "8h")
            else (s, determine_interval_from_hour (hour_of_ms next_funding_time))
        | none => (s, "8h"))

/-- Result of `FundingIntervalDetector.detect_funding_intervals`: the returned
symbol → interval dict, the `intervals` cache after the call, and whether
`_save_cache` ran. -/
structure DetectResult where
  result : List (String × String)
  cache : List (String × String)
  saved : Bool
  deriving Repr, DecidableEq

/-- Embeds `FundingIntervalDetector.detect_funding_intervals` (without
`force_update`): cached symbols are answered from the cache, the rest are
detected from the live snapshot; every detection is written into the cache,
which is persisted once iff at least one detection happened. -/
def detect_funding_intervals (cache : List (String × String))
    (symbols : List String) (fetch : Option (String → Option Nat)) :
    DetectResult :=
  let cached_hits := symbols.filterMap (fun s =>
    (dlookup cache s).map (fun iv => (s, iv)))
  let symbols_to_detect := symbols.filter (fun s => (dlookup cache s).isNone)
  let detected_intervals := analyze_funding_patterns fetch symbols_to_detect
  { result := cached_hits ++ detected_intervals
    cache := detected_intervals.foldl (fun c p => dupdate c p.1 p.2) cache
    saved := !detected_intervals.isEmpty }

/-! ## Rate-limited requests (`ExtractFundingRateHistory._rate_limited_request`) -/

/-- The `_min_request_interval` constant, scaled to milliseconds. -/
def min_request_interval : Nat := 1500

/-- One execution of `_rate_limited_request` while holding `_request_lock`:
given the stored `_last_request_time`, the clock reading on entry and the
duration of the HTTP round trip, return the instant the request is issued and
the new `_last_request_time` (taken after the response returns).  When less
than the minimum interval has elapsed the caller sleeps until
`last + min_request_interval`, so the issue instant is the maximum of the two
candidates. -/
def rate_limited_request (last now dur : Nat) : Nat × Nat :=
  let issue := max now (last + min_request_interval)
  (issue, issue + dur)

/-- Issue instants of a serialized sequence of `_rate_limited_request` calls.
Each list element `(delta, dur)` is one caller: it acquires the lock and reads
the clock `delta` ≥ 0 ms after the previous holder stored its completion time
(clock monotonicity across the lock handoff), and its HTTP round trip takes
`dur` ms. -/
def issue_times (last : Nat) : List (Nat × Nat) → List Nat
  | [] => []
  | (delta, dur) :: rest =>
      let r := rate_limited_request last (last + delta) dur
      r.1 :: issue_times r.2 rest

/-! ## `AdvancedFundingRateScheduler` (scheduler/advanced_funding_scheduler.py) -/

/-- The three per-cadence symbol lists owned by the scheduler. -/
structure SchedulerBuckets where
  symbols_1h : List String
  symbols_4h : List String
  symbols_8h : List String
  deriving Repr, DecidableEq

/-- Embeds `intervals.get(symbol, "8h")` as used by `_categorize_symbols`. -/
def interval_for (intervals : List (String × String)) (s : String) : String :=
  (dlookup intervals s).getD "8h"

/-- Embeds `AdvancedFundingRateScheduler._categorize_symbols`, normal path: each
symbol goes to the bucket named by its detected interval, defaulting to 8h. -/
def categorize_symbols (symbols : List String)
    (intervals : List (String × String)) : SchedulerBuckets where
  symbols_1h := symbols.filter (fun s => interval_for intervals s == "1h")
  symbols_4h := symbols.filter (fun s => interval_for intervals s == "4h")
  symbols_8h := symbols.filter (fun s =>
    interval_for intervals s != "1h" && interval_for intervals s != "4h")

/-- Embeds the `_categorize_symbols` exception fallback: "all to 8h with 1h
monitoring" — the full symbol list is copied into both the 1h and the 8h
buckets and the 4h bucket is emptied. -/
def categorize_symbols_fallback (symbols : List String) : SchedulerBuckets where
  symbols_1h := symbols
  symbols_4h := []
  symbols_8h := symbols

/-- Scheduler state relevant to the bucket invariant: the configured symbol
list, the running flag and the three buckets. -/
structure SchedulerState where
  symbols : List String
  is_running : Bool
  buckets : SchedulerBuckets
  deriving Repr, DecidableEq

/-- Externally driven events of the scheduler lifecycle.  `start (some iv)`
is `start_scheduler` with a successful classification returning the interval
dict `iv`; `start none` is `start_scheduler` whose classification raises, so
`_categorize_symbols` takes its fallback branch; `stop` is
`stop_scheduler`. -/
inductive SchedEvent where
  | start (intervals : Option (List (String × String)))
  | stop
  deriving Repr, DecidableEq

/-- One scheduler lifecycle transition.  Starting while running and stopping
while stopped are no-ops; stopping clears the schedules but leaves the
buckets in place. -/
def sched_step (st : SchedulerState) : SchedEvent → SchedulerState
  | .start iv? =>
      if st.is_running then st
      else
        { st with
          is_running := true
          buckets :=
            match iv? with
            | some iv => categorize_symbols st.symbols iv
            | none => categorize_symbols_fallback st.symbols }
  | .stop => { st with is_running := false }

/-- State after `__init__` with the given symbol list. -/
def sched_init (symbols : List String) : SchedulerState :=
  { symbols := symbols, is_running := false
    buckets := { symbols_1h := [], symbols_4h := [], symbols_8h := [] } }

/-- The reachable state after a sequence of lifecycle events. -/
def sched_run (symbols : List String) (events : List SchedEvent) :
    SchedulerState :=
  events.foldl sched_step (sched_init symbols)

/-! ## Batch extraction (`AdvancedFundingRateScheduler._extract_funding_data`) -/

/-- The `symbols[i:i+batch_size]` slices of the loop
`for i in range(0, len(symbols), batch_size)`. -/
def to_batches {α : Type} (bs : Nat) (l : List α) : List (List α) :=
  if h : l.isEmpty ∨ bs = 0 then []
  else
    l.take bs :: to_batches bs (l.drop bs)
termination_by l.length
decreasing_by
  push_neg at h
  simp only [List.length_drop]
  have hl : l ≠ [] := by simpa [List.isEmpty_iff] using h.1
  exact Nat.sub_lt (List.length_pos.mpr hl) (Nat.pos_of_ne_zero h.2)

/-- The dict returned by `_extract_funding_data`. -/
structure ExtractResult where
  success_count : Nat
  total_count : Nat
  failed_symbols : List String
  successful_symbols : List String
  deriving Repr, DecidableEq

/-- Embeds `AdvancedFundingRateScheduler._extract_funding_data`: the symbol list is
cut into batches (50 for the 1h cadence, 20 otherwise); `batch_fails i`
injects an exception into the `i`-th (0-based) batch's
`_fetch_and_update_funding_rates` call, which marks every symbol of that
batch failed; all other batches succeed wholesale. -/
def extract_funding_data (symbols : List String) (interval : String)
    (batch_fails : Nat → Bool) : ExtractResult :=
  let batch_size := if interval == "1h" then 50 else 20
  let batches := to_batches batch_size symbols
  let successful_symbols :=
    ((batches.enum.filter (fun p => !batch_fails p.1)).map (fun p => p.2)).flatten
  let failed_symbols :=
    ((batches.enum.filter (fun p => batch_fails p.1)).map (fun p => p.2)).flatten
  { success_count := successful_symbols.length
    total_count := symbols.length
    failed_symbols := failed_symbols
    successful_symbols := successful_symbols }

/-- The condition under which `_execute_1h_monitoring` forwards the
`CycleResult` to the Telegram bot: `success_count < len(symbols_1h) * 0.9`,
the float threshold taken exactly over `ℚ`. -/
def notify_1h_result (success_count : Nat) (symbols_1h : List String) : Bool :=
  decide ((success_count : ℚ) < (symbols_1h.length : ℚ) * (9 / 10 : ℚ))

/-! ## `LoadMongo.verify_recent_funding_data` (src/load/load_mongo.py) -/

/-- The dict returned by `verify_recent_funding_data` (reporting-only fields
such as `cutoff_time` are omitted). -/
structure VerificationResult where
  total_symbols : Nat
  verified_symbols : Nat
  missing_symbols : List String
  stale_symbols : List String
  success_rate : ℚ
  deriving Repr, DecidableEq

/-- Embeds `LoadMongo.verify_recent_funding_data`.  The collection is the list of
`(symbol, last_update_time)` pairs of the stored documents; `now_ms` is the
current UTC time in milliseconds.  The aggregation pipeline `$match`es
documents of the requested symbols whose `last_update_time` is at least the
cutoff, then `$group`s them per symbol with the maximal `last_update_time`;
the Python code then derives missing and stale symbols from those groups. -/
def verify_recent_funding_data (store : List (String × Nat))
    (symbols : List String) (max_age_seconds : Nat) (now_ms : Nat) :
    VerificationResult :=
  let cutoff_timestamp := now_ms - max_age_seconds * 1000
  let matched := store.filter (fun r =>
    symbols.contains r.1 && decide (cutoff_timestamp ≤ r.2))
  let symbols_with_recent_data := (matched.map (fun r => r.1)).dedup
  let recent_data := symbols_with_recent_data.map (fun s =>
    (s, ((matched.filter (fun r => r.1 == s)).map (fun r => r.2)).foldr max 0))
  let missing_symbols :=
    symbols.filter (fun s => !symbols_with_recent_data.contains s)
  let stale_symbols :=
    (recent_data.filter (fun p => decide (p.2 < cutoff_timestamp))).map
      (fun p => p.1)
  { total_symbols := symbols.length
    verified_symbols := symbols_with_recent_data.length
    missing_symbols := missing_symbols
    stale_symbols := stale_symbols
    success_rate :=
      if symbols.length = 0 then 0
      else (symbols_with_recent_data.length : ℚ) / (symbols.length : ℚ) }

/-! ## `ExtractFundingRateHistory` fetching and blacklist
(src/extract/extract_history.py) -/

/-- Outcome of the HTTP GET underlying one `get_funding_rate_history` call:
a successful body (the `fundingTime` values of its records), an HTTP error
status, or a network/other failure. -/
inductive ApiResponse : Type where
  | ok (funding_times : List Nat)
  | httpError (status : Nat)
  | networkError
  deriving Repr, DecidableEq

/-- Python set insertion `BLACKLISTED_SYMBOLS.add(symbol)`. -/
def blacklist_add (blacklist : List String) (s : String) : List String :=
  if blacklist.contains s then blacklist else s :: blacklist

/-- Observable outcome of one `get_funding_rate_history` call: the records
returned to the caller, the blacklist after the call, whether an outbound
request was issued, and the back-off sleep taken (ms). -/
structure FetchOutcome where
  records : List Nat
  blacklist : List String
  request_issued : Bool
  backoff_ms : Nat
  deriving Repr, DecidableEq

/-- Embeds `ExtractFundingRateHistory.get_funding_rate_history` for a symbol, given
the process blacklist and the response of the market-data source.  The method
issues its request unconditionally — it never consults the blacklist.  On a
403 the symbol is added to the blacklist; on a 429 the caller sleeps 5 s; in
every error case the empty record list is returned. -/
def get_funding_rate_history (blacklist : List String) (symbol : String)
    (resp : ApiResponse) : FetchOutcome :=
  match resp with
  | .ok funding_times =>
      { records := funding_times, blacklist := blacklist
        request_issued := true, backoff_ms := 0 }
  | .httpError status =>
      if status == 403 then
        { records := [], blacklist := blacklist_add blacklist symbol
          request_issued := true, backoff_ms := 0 }
      else if status == 429 then
        { records := [], blacklist := blacklist
          request_issued := true, backoff_ms := 5000 }
      else
        { records := [], blacklist := blacklist
          request_issued := true, backoff_ms := 0 }
  | .networkError =>
      { records := [], blacklist := blacklist
        request_issued := true, backoff_ms := 0 }

/-- One entry of the `/fapi/v1/ticker/24hr` response; `quoteVolume` (a
decimal string in the source) is modelled as a scaled integer. -/
structure Ticker where
  symbol : String
  quoteVolume : Nat
  deriving Repr, DecidableEq

/-- Embeds `ExtractFundingRateHistory.get_top_symbols`: keep USDT perpetuals with
positive volume that are not blacklisted, sort by volume descending, take the
first `limit`. -/
def get_top_symbols (blacklist : List String) (data : List Ticker)
    (limit : Nat) : List String :=
  let usdt_symbols := data.filter (fun t =>
    t.symbol.endsWith "USDT" && decide (0 < t.quoteVolume)
      && !blacklist.contains t.symbol)
  let sorted := usdt_symbols.mergeSort (fun a b => b.quoteVolume ≤ a.quoteVolume)
  (sorted.map (fun t => t.symbol)).take limit

/-! ## Start-time discovery (`ExtractFundingRateHistory._find_symbol_start_time`) -/

/-- Millisecond UTC epoch values of the `test_periods` calendar anchors (the
source builds them with naive `datetime`; UTC values are used here). -/
def ts_2017_01_01 : Nat := 1483228800000

def ts_2019_09_01 : Nat := 1567296000000

def ts_2020_01_01 : Nat := 1577836800000

def ts_2021_01_01 : Nat := 1609459200000

def ts_2022_01_01 : Nat := 1640995200000

def ts_2023_01_01 : Nat := 1672531200000

/-- The probe anchors, oldest to newest. -/
def test_periods : List Nat :=
  [ts_2017_01_01, ts_2019_09_01, ts_2020_01_01, ts_2021_01_01,
   ts_2022_01_01, ts_2023_01_01]

/-- Thirty days in milliseconds, the threshold for entering the binary search. -/
def thirty_days_ms : Nat := 30 * 24 * 60 * 60 * 1000

/-- The anchor-probing loop: walk the anchors in order, issuing one request
each, until one has data.  Returns the first anchor with data (if any) and
the probed timestamps.  `probe t` tells whether
`get_funding_rate_history(symbol, start_time=t, ...)` returns records. -/
def probe_periods (probe : Nat → Bool) : List Nat → Option Nat × List Nat
  | [] => (none, [])
  | t :: rest =>
      if probe t then (some t, [t])
      else
        let r := probe_periods probe rest
        (r.1, t :: r.2)

/-- The capped binary search of `_find_symbol_start_time`: at most `fuel`
iterations (10 in the source), each probing `mid = (left + right) / 2` with
one request.  Returns the last midpoint that had data (if any) and the probed
timestamps. -/
def binary_search_start (probe : Nat → Bool) :
    Nat → Nat → Nat → Option Nat → Option Nat × List Nat
  | 0, _, _, found => (found, [])
  | fuel + 1, left, right, found =>
      if left < right then
        let mid := (left + right) / 2
        if probe mid then
          let r := binary_search_start probe fuel left mid (some mid)
          (r.1, mid :: r.2)
        else
          let r := binary_search_start probe fuel (mid + 1) right found
          (r.1, mid :: r.2)
      else (found, [])

/-- Result of `_find_symbol_start_time`: the returned timestamp, the
`_symbol_start_times` cache after the call, and the timestamps of every
outbound request the call issued. -/
structure FindStartResult where
  start_time : Nat
  cache : List (String × Nat)
  requests : List Nat
  deriving Repr, DecidableEq

/-- Embeds `ExtractFundingRateHistory._find_symbol_start_time` (non-exception path):
answer from the cache when present; otherwise probe the anchors not in the
future, optionally binary-search below the first anchor with data when the
gap to the 2017 floor exceeds 30 days, fall back to the 2019-09-01 default
when no probe found data, and cache the result. -/
def find_symbol_start_time (cache : List (String × Nat)) (symbol : String)
    (probe : Nat → Bool) (current_time : Nat) : FindStartResult :=
  match dlookup cache symbol with
  | some cached_time =>
      { start_time := cached_time, cache := cache, requests := [] }
  | none =>
      let pr := probe_periods probe
        (test_periods.filter (fun t => decide (t ≤ current_time)))
      match pr.1 with
      | some earliest_with_data =>
          let bsr :=
            if thirty_days_ms < earliest_with_data - ts_2017_01_01 then
              binary_search_start probe 10 ts_2017_01_01 earliest_with_data none
            else (none, [])
          let found_start := bsr.1.getD earliest_with_data
          { start_time := found_start
            cache := dupdate cache symbol found_start
            requests := pr.2 ++ bsr.2 }
      | none =>
          { start_time := ts_2019_09_01
            cache := dupdate cache symbol ts_2019_09_01
            requests := pr.2 }

/-! ## Helper lemmas -/

lemma determine_interval_mem (h : Nat) :
    determine_interval_from_hour h = "4h" ∨ determine_interval_from_hour h = "8h" := by
  rw [determine_interval_from_hour]
  split
  · exact Or.inr rfl
  · split
    · exact Or.inl rfl
    · exact Or.inr rfl

lemma analyze_values {fetch : Option (String → Option Nat)}
    {symbols : List String} :
    ∀ p ∈ analyze_funding_patterns fetch symbols, p.2 = "4h" ∨ p.2 = "8h" := by
  intro p hp
  cases fetch with
  | none => simp [analyze_funding_patterns] at hp
  | some f =>
      simp only [analyze_funding_patterns, List.mem_map, List.mem_filter] at hp
      obtain ⟨s, ⟨_, _⟩, rfl⟩ := hp
      cases hfs : f s with
      | none => simp [hfs]
      | some t =>
          simp only [hfs]
          split
          · exact Or.inr rfl
          · exact determine_interval_mem _

lemma dlookup_eq_none {α : Type} {m : List (String × α)} {k : String} :
    dlookup m k = none ↔ ∀ p ∈ m, p.1 ≠ k := by
  unfold dlookup
  rw [Option.map_eq_none', List.find?_eq_none]
  simp

lemma dlookup_mem {α : Type} {m : List (String × α)} {k : String} {v : α}
    (h : dlookup m k = some v) : ∃ p ∈ m, p.2 = v := by
  unfold dlookup at h
  cases hf : m.find? (fun p => p.1 == k) with
  | none => rw [hf] at h; simp at h
  | some q =>
      rw [hf] at h
      simp at h
      exact ⟨q, List.mem_of_find?_eq_some hf, h⟩

lemma interval_for_analyze_ne_1h (fetch : Option (String → Option Nat))
    (symbols : List String) (s : String) :
    interval_for (analyze_funding_patterns fetch symbols) s ≠ "1h" := by
  unfold interval_for
  cases hd : dlookup (analyze_funding_patterns fetch symbols) s with
  | none => simp
  | some v =>
      obtain ⟨p, hp, hv⟩ := dlookup_mem hd
      rcases analyze_values p hp with h4 | h8
      · rw [hv] at h4; simp [h4]
      · rw [hv] at h8; simp [h8]

/-! ## Claim theorems -/

/-- C5: for every hour `h` in `0..23`, `_determine_interval_from_hour`
returns `4h` exactly on `{4, 12, 20}` and `8h` everywhere else (the `{0, 8,
16}` ambiguity and non-multiples of 4 both resolve to `8h`). -/
theorem determine_interval_spec :
    ∀ h : Fin 24, determine_interval_from_hour h.val =
      if h.val = 4 ∨ h.val = 12 ∨ h.val = 20 then "4h" else "8h" := by
  decide

/-- C10: a freshly detected (non-cached) classification value is always `4h`
or `8h`, never `1h`; consequently categorizing any symbol list against a
detector output alone leaves the 1h bucket empty. -/
theorem detected_interval_never_1h :
    ∀ (fetch : Option (String → Option Nat)) (symbols symbols2 : List String),
      (analyze_funding_patterns fetch symbols).filter
          (fun p => p.2 == "1h") = [] ∧
      (categorize_symbols symbols2
          (analyze_funding_patterns fetch symbols)).symbols_1h = [] := by
  intro fetch symbols symbols2
  constructor
  · rw [List.filter_eq_nil_iff]
    intro p hp
    rcases analyze_values p hp with h | h <;> simp [h]
  · show List.filter _ symbols2 = []
    rw [List.filter_eq_nil_iff]
    intro s _
    have := interval_for_analyze_ne_1h fetch symbols s
    simp [this]

/-- C7: the 1h `CycleResult` notification is sent exactly when
`success_count < len(symbols_1h) * 0.9`; in particular, for a bucket of 100
instruments, 95 successes produce no alert while 89 do. -/
theorem notify_1h_result_threshold :
    notify_1h_result 95 (List.replicate 100 "BTCUSDT") = false ∧
    notify_1h_result 89 (List.replicate 100 "BTCUSDT") = true ∧
    ∀ (success_count : Nat) (symbols_1h : List String),
      (notify_1h_result success_count symbols_1h = true ↔
        10 * success_count < 9 * symbols_1h.length) := by
  have hgen : ∀ (s : Nat) (bucket : List String),
      (notify_1h_result s bucket = true ↔ 10 * s < 9 * bucket.length) := by
    intro s bucket
    rw [notify_1h_result, decide_eq_true_iff]
    rw [show ((bucket.length : ℚ) * (9 / 10 : ℚ)) = (9 * bucket.length : ℚ) / 10
      by ring]
    rw [lt_div_iff₀ (by norm_num : (0 : ℚ) < 10)]
    constructor
    · intro h
      have : ((10 * s : Nat) : ℚ) < ((9 * bucket.length : Nat) : ℚ) := by
        push_cast
        linarith
      exact_mod_cast this
    · intro h
      have : ((10 * s : Nat) : ℚ) < ((9 * bucket.length : Nat) : ℚ) := by
        exact_mod_cast h
      push_cast at this
      linarith
  refine ⟨?_, ?_, hgen⟩
  · have h := hgen 95 (List.replicate 100 "BTCUSDT")
    rw [List.length_replicate] at h
    cases hb : notify_1h_result 95 (List.replicate 100 "BTCUSDT")
    · rfl
    · exact absurd (h.mp hb) (by omega)
  · have h := hgen 89 (List.replicate 100 "BTCUSDT")
    rw [List.length_replicate] at h
    exact h.mpr (by omega)

/-- C9: when the snapshot fetch fails entirely, every uncached symbol of the
call resolves to the 8h default, no cache entry is written for it and no
cache persist occurs, the scheduler puts it in the 8h bucket, and a later
call still finds it uncached (so classification is re-attempted). -/
theorem detect_failure_fallback_8h
    (cache : List (String × String)) (symbols : List String) (s : String)
    (hs : s ∈ symbols) (hmiss : dlookup cache s = none) :
    interval_for (detect_funding_intervals cache symbols none).result s = "8h" ∧
    (detect_funding_intervals cache symbols none).cache = cache ∧
    (detect_funding_intervals cache symbols none).saved = false ∧
    s ∈ (categorize_symbols symbols
      (detect_funding_intervals cache symbols none).result).symbols_8h ∧
    dlookup (detect_funding_intervals cache symbols none).cache s = none := by
  have hres : (detect_funding_intervals cache symbols none).result =
      symbols.filterMap (fun s' => (dlookup cache s').map (fun iv => (s', iv))) := by
    simp [detect_funding_intervals, analyze_funding_patterns]
  have hcache : (detect_funding_intervals cache symbols none).cache = cache := by
    simp [detect_funding_intervals, analyze_funding_patterns]
  have hsaved : (detect_funding_intervals cache symbols none).saved = false := by
    simp [detect_funding_intervals, analyze_funding_patterns]
  have hlk : dlookup ((detect_funding_intervals cache symbols none).result) s
      = none := by
    rw [hres, dlookup_eq_none]
    intro p hp
    simp only [List.mem_filterMap, Option.map_eq_some'] at hp
    obtain ⟨s', _, v, hv, rfl⟩ := hp
    intro hbe
    simp only at hbe
    rw [hbe] at hv
    rw [hv] at hmiss
    exact Option.noConfusion hmiss
  have hfor : interval_for (detect_funding_intervals cache symbols none).result s
      = "8h" := by
    rw [interval_for, hlk]
    rfl
  refine ⟨hfor, hcache, hsaved, ?_, by rw [hcache]; exact hmiss⟩
  show s ∈ List.filter _ symbols
  rw [List.mem_filter]
  exact ⟨hs, by rw [hfor]; rfl⟩

/-- Witness for `detect_failure_fallback_8h` at a concrete uncached symbol. -/
theorem detect_failure_fallback_8h_witness :
    interval_for (detect_funding_intervals [] ["BTCUSDT"] none).result "BTCUSDT"
      = "8h" ∧
    (detect_funding_intervals [] ["BTCUSDT"] none).cache = [] ∧
    (detect_funding_intervals [] ["BTCUSDT"] none).saved = false ∧
    "BTCUSDT" ∈ (categorize_symbols ["BTCUSDT"]
      (detect_funding_intervals [] ["BTCUSDT"] none).result).symbols_8h ∧
    dlookup (detect_funding_intervals [] ["BTCUSDT"] none).cache "BTCUSDT"
      = none :=
  detect_failure_fallback_8h [] ["BTCUSDT"] "BTCUSDT"
    (List.mem_singleton.mpr rfl) rfl

lemma le_foldr_max {l : List Nat} {x : Nat} (hx : x ∈ l) :
    x ≤ l.foldr max 0 := by
  induction l with
  | nil => simp at hx
  | cons a rest ih =>
      rcases List.mem_cons.mp hx with rfl | hx'
      · exact le_max_left _ _
      · exact le_trans (ih hx') (le_max_right _ _)

/-- C2: on the synthetic store of the claim (A one minute old, B ten hours
old, C absent; `maxAge` = 8 h 5 min = 29100 s), the code reports B as
*missing*, not stale, with an empty stale list and `successRate = 1/3`;
moreover the stale list is empty for **every** store, because the
aggregation's `$match` already discards all records older than the cutoff,
making the `latest_update < cutoff_time` stale check dead code. -/
theorem verify_recent_funding_stale_dead :
    ((verify_recent_funding_data [("A", 99940000), ("B", 64000000)]
        ["A", "B", "C"] 29100 100000000).missing_symbols = ["B", "C"] ∧
     (verify_recent_funding_data [("A", 99940000), ("B", 64000000)]
        ["A", "B", "C"] 29100 100000000).stale_symbols = [] ∧
     (verify_recent_funding_data [("A", 99940000), ("B", 64000000)]
        ["A", "B", "C"] 29100 100000000).verified_symbols = 1 ∧
     (verify_recent_funding_data [("A", 99940000), ("B", 64000000)]
        ["A", "B", "C"] 29100 100000000).total_symbols = 3 ∧
     (verify_recent_funding_data [("A", 99940000), ("B", 64000000)]
        ["A", "B", "C"] 29100 100000000).success_rate = 1 / 3) ∧
    ∀ (store : List (String × Nat)) (symbols : List String)
      (max_age_seconds now_ms : Nat),
      (verify_recent_funding_data store symbols max_age_seconds
        now_ms).stale_symbols = [] := by
  refine ⟨⟨rfl, rfl, rfl, rfl, rfl⟩, ?_⟩
  intro store symbols max_age_seconds now_ms
  show (List.filter _ _).map _ = []
  rw [List.map_eq_nil_iff, List.filter_eq_nil_iff]
  intro p hp
  simp only [List.mem_map] at hp
  obtain ⟨s', hs', rfl⟩ := hp
  -- `s'` has at least one matched record, whose timestamp is ≥ the cutoff and
  -- ≤ the folded maximum, so the `< cutoff` test is false.
  rw [List.mem_dedup, List.mem_map] at hs'
  obtain ⟨r, hr, hr1⟩ := hs'
  have hcut : now_ms - max_age_seconds * 1000 ≤ r.2 := by
    have := (List.mem_filter.mp hr).2
    simp only [Bool.and_eq_true, decide_eq_true_iff] at this
    exact this.2
  have hmem : r.2 ∈ ((store.filter (fun r =>
      symbols.contains r.1 && decide (now_ms - max_age_seconds * 1000 ≤ r.2))).filter
        (fun r => r.1 == s')).map (fun r => r.2) := by
    refine List.mem_map.mpr ⟨r, ?_, rfl⟩
    exact List.mem_filter.mpr ⟨hr, by simp [hr1]⟩
  have hle := le_foldr_max hmem
  simp only [decide_eq_true_iff]
  omega

/-- C4 fails on the code: after a 403 has blacklisted an instrument, a later
`get_funding_rate_history` call for that very instrument still issues an
outbound request — the fetch path never consults the blacklist. -/
theorem blacklist_not_consulted_on_fetch :
    "WOOUSDT" ∈ (get_funding_rate_history [] "WOOUSDT"
        (ApiResponse.httpError 403)).blacklist ∧
    (get_funding_rate_history
        (get_funding_rate_history [] "WOOUSDT"
          (ApiResponse.httpError 403)).blacklist
        "WOOUSDT" (ApiResponse.ok [1700000000000])).request_issued = true := by
  constructor
  · show "WOOUSDT" ∈ blacklist_add [] "WOOUSDT"
    rw [blacklist_add]
    simp
  · rfl

/-- C4 amended: a 403 adds the instrument to the process-wide blacklist, and
the blacklist excludes it from every future symbol list built by
`get_top_symbols`; but `get_funding_rate_history` itself never consults the
blacklist, so a direct fetch for a blacklisted instrument still issues a
request. -/
theorem forbidden_blacklist_behavior
    (blacklist bl : List String) (symbol s : String) (resp : ApiResponse)
    (data : List Ticker) (limit : Nat) (hs : s ∈ bl) :
    symbol ∈ (get_funding_rate_history blacklist symbol
        (ApiResponse.httpError 403)).blacklist ∧
    s ∉ get_top_symbols bl data limit ∧
    (get_funding_rate_history blacklist symbol resp).request_issued = true := by
  refine ⟨?_, ?_, ?_⟩
  · show symbol ∈ blacklist_add blacklist symbol
    rw [blacklist_add]
    split
    · next h => exact List.mem_of_elem_eq_true h
    · exact List.mem_cons_self _ _
  · intro hmem
    rw [get_top_symbols] at hmem
    obtain ⟨t, ht, rfl⟩ := List.mem_map.mp (List.take_subset _ _ hmem)
    have ht' := List.mem_mergeSort.mp ht
    have hcond := (List.mem_filter.mp ht').2
    simp only [Bool.and_eq_true, Bool.not_eq_true'] at hcond
    exact absurd hs (by simpa using hcond.2)
  · cases resp with
    | ok funding_times => rfl
    | httpError status =>
        rw [get_funding_rate_history]
        split
        · rfl
        · split
          · rfl
          · rfl
    | networkError => rfl

/-- Witness for `forbidden_blacklist_behavior` at concrete inputs. -/
theorem forbidden_blacklist_behavior_witness :
    "WAVESUSDT" ∈ (get_funding_rate_history ["WAVESUSDT"] "WAVESUSDT"
        (ApiResponse.httpError 403)).blacklist ∧
    "WAVESUSDT" ∉ get_top_symbols ["WAVESUSDT"]
        [{ symbol := "WAVESUSDT", quoteVolume := 5 },
         { symbol := "BTCUSDT", quoteVolume := 9 }] 100 ∧
    (get_funding_rate_history ["WAVESUSDT"] "WAVESUSDT"
        (ApiResponse.httpError 403)).request_issued = true :=
  forbidden_blacklist_behavior ["WAVESUSDT"] ["WAVESUSDT"] "WAVESUSDT"
    "WAVESUSDT" (ApiResponse.httpError 403)
    [{ symbol := "WAVESUSDT", quoteVolume := 5 },
     { symbol := "BTCUSDT", quoteVolume := 9 }] 100
    (List.mem_singleton.mpr rfl)

/-- C3 fails on the code: after a start whose classification raises, the
fallback path of `_categorize_symbols` places the same instrument in both the
1h and the 8h buckets of the reachable scheduler state. -/
theorem categorize_fallback_double_bucket :
    "BTCUSDT" ∈ (sched_run ["BTCUSDT"] [SchedEvent.start none]).buckets.symbols_1h
      ∧
    "BTCUSDT" ∈ (sched_run ["BTCUSDT"] [SchedEvent.start none]).buckets.symbols_8h
    := by
  decide

/-- C3 amended: on the normal categorization path every instrument of the
call belongs to exactly one of the three cadence buckets; the
classification-failure fallback instead places every instrument in both the
1h and the 8h buckets. -/
theorem categorize_buckets_partition
    (symbols : List String) (intervals : List (String × String)) (s : String)
    (hs : s ∈ symbols) :
    ((s ∈ (categorize_symbols symbols intervals).symbols_1h ∧
      s ∉ (categorize_symbols symbols intervals).symbols_4h ∧
      s ∉ (categorize_symbols symbols intervals).symbols_8h) ∨
     (s ∉ (categorize_symbols symbols intervals).symbols_1h ∧
      s ∈ (categorize_symbols symbols intervals).symbols_4h ∧
      s ∉ (categorize_symbols symbols intervals).symbols_8h) ∨
     (s ∉ (categorize_symbols symbols intervals).symbols_1h ∧
      s ∉ (categorize_symbols symbols intervals).symbols_4h ∧
      s ∈ (categorize_symbols symbols intervals).symbols_8h)) ∧
    s ∈ (categorize_symbols_fallback symbols).symbols_1h ∧
    s ∈ (categorize_symbols_fallback symbols).symbols_8h := by
  refine ⟨?_, hs, hs⟩
  simp only [categorize_symbols, List.mem_filter, Bool.and_eq_true,
    bne_iff_ne, beq_iff_eq, ne_eq]
  by_cases h1 : interval_for intervals s = "1h"
  · exact Or.inl ⟨⟨hs, h1⟩, fun h => by simp [h1] at h, fun h => h.2.1 h1⟩
  · by_cases h4 : interval_for intervals s = "4h"
    · exact Or.inr (Or.inl ⟨fun h => h1 h.2, ⟨hs, h4⟩, fun h => h.2.2 h4⟩)
    · exact Or.inr (Or.inr ⟨fun h => h1 h.2, fun h => h4 h.2, hs, h1, h4⟩)

lemma dlookup_cons {α : Type} (x : String × α) (xs : List (String × α))
    (k : String) :
    dlookup (x :: xs) k = if x.1 == k then some x.2 else dlookup xs k := by
  unfold dlookup
  rw [List.find?_cons]
  cases h : (x.1 == k) <;> simp [h]

lemma dlookup_dupdate_self {α : Type} (m : List (String × α)) (k : String)
    (v : α) : dlookup (dupdate m k v) k = some v := by
  induction m with
  | nil => simp [dupdate, dlookup_cons]
  | cons p rest ih =>
      rw [dupdate]
      cases hpk : (p.1 == k) with
      | true => simp [dlookup_cons]
      | false => simp [dlookup_cons, hpk, ih]

lemma find_start_cache_lookup (cache : List (String × Nat)) (symbol : String)
    (probe : Nat → Bool) (current_time : Nat) :
    dlookup (find_symbol_start_time cache symbol probe current_time).cache
        symbol
      = some (find_symbol_start_time cache symbol probe current_time).start_time
    := by
  cases h : dlookup cache symbol with
  | some t =>
      simp only [find_symbol_start_time, h]
  | none =>
      cases hp : (probe_periods probe
          (test_periods.filter (fun t => decide (t ≤ current_time)))).1 with
      | some e =>
          simp only [find_symbol_start_time, h, hp]
          exact dlookup_dupdate_self _ _ _
      | none =>
          simp only [find_symbol_start_time, h, hp]
          exact dlookup_dupdate_self _ _ _

/-- C8: start-time discovery is idempotent — whatever a first
`_find_symbol_start_time` call did, a second call for the same symbol (under
any network behavior and clock) returns exactly the now-cached value, issues
zero requests and leaves the cache unchanged. -/
theorem find_symbol_start_time_idempotent (cache : List (String × Nat))
    (symbol : String) (probe probe2 : Nat → Bool)
    (current_time current_time2 : Nat) :
    find_symbol_start_time
        (find_symbol_start_time cache symbol probe current_time).cache
        symbol probe2 current_time2
      = { start_time :=
            (find_symbol_start_time cache symbol probe current_time).start_time
          cache := (find_symbol_start_time cache symbol probe current_time).cache
          requests := [] } := by
  have h := find_start_cache_lookup cache symbol probe current_time
  conv_lhs => rw [find_symbol_start_time, h]

lemma issue_times_lower (calls : List (Nat × Nat)) :
    ∀ (last t : Nat), t ∈ issue_times last calls →
      last + min_request_interval ≤ t := by
  induction calls with
  | nil => intro last t ht; simp [issue_times] at ht
  | cons c rest ih =>
      intro last t ht
      obtain ⟨delta, dur⟩ := c
      simp only [issue_times, rate_limited_request, List.mem_cons] at ht
      rcases ht with rfl | ht
      · exact le_max_right _ _
      · have h := ih _ _ ht
        have h2 : last + min_request_interval
            ≤ max (last + delta) (last + min_request_interval) :=
          le_max_right _ _
        omega

lemma issue_times_pairwise (calls : List (Nat × Nat)) :
    ∀ last : Nat, List.Pairwise
      (fun a b => a + min_request_interval ≤ b) (issue_times last calls) := by
  induction calls with
  | nil => intro last; simp [issue_times]
  | cons c rest ih =>
      intro last
      obtain ⟨delta, dur⟩ := c
      simp only [issue_times, rate_limited_request]
      refine List.Pairwise.cons ?_ (ih _)
      intro t ht
      have h := issue_times_lower rest _ t ht
      omega

/-- C1: for every serialized sequence of `_rate_limited_request` calls (the
mutual-exclusion lock admits exactly one caller at a time; each caller reads
a monotone clock), any two issue instants are at least
`_min_request_interval` apart — the later one is at least 1.5 s after every
earlier one. -/
theorem rate_limited_requests_min_spacing (calls : List (Nat × Nat)) :
    List.Pairwise (fun a b => a + min_request_interval ≤ b)
      (issue_times 0 calls) :=
  issue_times_pairwise calls 0

lemma to_batches_flatten {α : Type} {bs : Nat} (hbs : 0 < bs) :
    ∀ l : List α, (to_batches bs l).flatten = l := by
  have H : ∀ (n : Nat) (l : List α), l.length ≤ n →
      (to_batches bs l).flatten = l := by
    intro n
    induction n with
    | zero =>
        intro l hl
        have hnil : l = [] := List.length_eq_zero.mp (Nat.le_zero.mp hl)
        subst hnil
        rw [to_batches]
        simp
    | succ n ih =>
        intro l hl
        rw [to_batches]
        split
        · next h =>
            rcases h with h | h
            · have hnil : l = [] := by simpa [List.isEmpty_iff] using h
              simp [hnil]
            · omega
        · next h =>
            push_neg at h
            have hne : l ≠ [] := by simpa [List.isEmpty_iff] using h.1
            have hpos : 0 < l.length := List.length_pos.mpr hne
            have hlen : (l.drop bs).length ≤ n := by
              rw [List.length_drop]
              omega
            rw [List.flatten_cons, ih (l.drop bs) hlen, List.take_append_drop]
  exact fun l => H l.length l le_rfl

lemma filters_map_flatten_sum (e : List (Nat × List String))
    (p : Nat × List String → Bool) (f : List String → Nat) :
    ((((e.filter (fun q => !p q)).map Prod.snd).map f).sum
        + (((e.filter p).map Prod.snd).map f).sum)
      = ((e.map Prod.snd).map f).sum := by
  have hperm : ((e.filter (fun q => !p q)) ++ (e.filter p)).Perm e := by
    have h := List.filter_append_perm (fun q => !p q) e
    simpa only [Bool.not_not] using h
  have hsum := (hperm.map (fun q => f q.2)).sum_eq
  simp only [List.map_append, List.sum_append] at hsum
  simpa only [List.map_map, Function.comp] using hsum

/-- C6: for every extraction run and every pattern of injected per-batch
failures, the returned result satisfies
`success_count + len(failed_symbols) = total_count`, and (when the input has
no duplicates) every input instrument lands in exactly one of the successful
and failed lists. -/
theorem extract_funding_data_partition (symbols : List String)
    (interval : String) (batch_fails : Nat → Bool) :
    (extract_funding_data symbols interval batch_fails).success_count
        + (extract_funding_data symbols interval batch_fails).failed_symbols.length
      = (extract_funding_data symbols interval batch_fails).total_count ∧
    (symbols.Nodup → ∀ s ∈ symbols,
      (s ∈ (extract_funding_data symbols interval batch_fails).successful_symbols
        ∧ s ∉ (extract_funding_data symbols interval batch_fails).failed_symbols)
      ∨
      (s ∈ (extract_funding_data symbols interval batch_fails).failed_symbols
        ∧ s ∉ (extract_funding_data symbols interval
            batch_fails).successful_symbols)) := by
  have hbs : 0 < (if interval == "1h" then 50 else 20) := by
    split <;> norm_num
  have hflat :
      (to_batches (if interval == "1h" then 50 else 20) symbols).flatten
        = symbols := to_batches_flatten hbs symbols
  set bs := if interval == "1h" then 50 else 20 with hbsdef
  set batches := to_batches bs symbols with hbatches
  set e := batches.enum with he
  set p : Nat × List String → Bool := fun q => batch_fails q.1 with hp
  have hsucc : (extract_funding_data symbols interval batch_fails).successful_symbols
      = ((e.filter (fun q => !p q)).map Prod.snd).flatten := by
    simp only [extract_funding_data]
  have hfail : (extract_funding_data symbols interval batch_fails).failed_symbols
      = ((e.filter p).map Prod.snd).flatten := by
    simp only [extract_funding_data]
  have hsc : (extract_funding_data symbols interval batch_fails).success_count
      = (((e.filter (fun q => !p q)).map Prod.snd).flatten).length := by
    simp only [extract_funding_data]
  have htc : (extract_funding_data symbols interval batch_fails).total_count
      = symbols.length := by
    simp only [extract_funding_data]
  have hsnd : e.map Prod.snd = batches := List.enum_map_snd batches
  constructor
  · rw [hsc, hfail, htc, List.length_flatten, List.length_flatten]
    have h := filters_map_flatten_sum e p List.length
    rw [hsnd] at h
    rw [List.map_map, List.map_map] at h ⊢
    rw [h, ← List.length_flatten, hflat]
  · intro hnodup s hs
    have hcount :
        ((((e.filter (fun q => !p q)).map Prod.snd).flatten).count s)
          + ((((e.filter p).map Prod.snd).flatten).count s)
        = symbols.count s := by
      rw [List.count_flatten, List.count_flatten]
      have h := filters_map_flatten_sum e p (List.count s)
      rw [hsnd] at h
      rw [h, ← List.count_flatten, hflat]
    have hone : symbols.count s = 1 := List.count_eq_one_of_mem hnodup hs
    rw [hone] at hcount
    rcases Nat.add_eq_one_iff.mp hcount with ⟨h0, h1⟩ | ⟨h1, h0⟩
    · right
      rw [hsucc, hfail]
      exact ⟨List.count_pos_iff.mp (by omega), List.count_eq_zero.mp h0⟩
    · left
      rw [hsucc, hfail]
      exact ⟨List.count_pos_iff.mp (by omega), List.count_eq_zero.mp h0⟩

/-- Witness for `extract_funding_data_partition` on a concrete run whose
single batch fails. -/
theorem extract_funding_data_partition_witness :
    (extract_funding_data ["A", "B"] "8h" (fun _ => true)).success_count
        + (extract_funding_data ["A", "B"] "8h"
            (fun _ => true)).failed_symbols.length
      = (extract_funding_data ["A", "B"] "8h" (fun _ => true)).total_count ∧
    (("A" ∈ (extract_funding_data ["A", "B"] "8h"
          (fun _ => true)).successful_symbols
        ∧ "A" ∉ (extract_funding_data ["A", "B"] "8h"
            (fun _ => true)).failed_symbols)
      ∨
      ("A" ∈ (extract_funding_data ["A", "B"] "8h"
          (fun _ => true)).failed_symbols
        ∧ "A" ∉ (extract_funding_data ["A", "B"] "8h"
            (fun _ => true)).successful_symbols)) := by
  have h := extract_funding_data_partition ["A", "B"] "8h" (fun _ => true)
  exact ⟨h.1, h.2 (by decide) "A" (by decide)⟩

/-- Witness for `categorize_buckets_partition` at a concrete 4h instrument. -/
theorem categorize_buckets_partition_witness :
    ((("X" : String) ∈ (categorize_symbols ["X"] [("X", "4h")]).symbols_1h ∧
      ("X" : String) ∉ (categorize_symbols ["X"] [("X", "4h")]).symbols_4h ∧
      ("X" : String) ∉ (categorize_symbols ["X"] [("X", "4h")]).symbols_8h) ∨
     (("X" : String) ∉ (categorize_symbols ["X"] [("X", "4h")]).symbols_1h ∧
      ("X" : String) ∈ (categorize_symbols ["X"] [("X", "4h")]).symbols_4h ∧
      ("X" : String) ∉ (categorize_symbols ["X"] [("X", "4h")]).symbols_8h) ∨
     (("X" : String) ∉ (categorize_symbols ["X"] [("X", "4h")]).symbols_1h ∧
      ("X" : String) ∉ (categorize_symbols ["X"] [("X", "4h")]).symbols_4h ∧
      ("X" : String) ∈ (categorize_symbols ["X"] [("X", "4h")]).symbols_8h)) ∧
    ("X" : String) ∈ (categorize_symbols_fallback ["X"]).symbols_1h ∧
    ("X" : String) ∈ (categorize_symbols_fallback ["X"]).symbols_8h :=
  categorize_buckets_partition ["X"] [("X", "4h")] "X"
    (List.mem_singleton.mpr rfl)
